import Mathlib

/-
Verification of the Bernoulli RBM learning engine (boltzmann-machine-viz).

The TypeScript class `BernoulliRBM` is shallowly embedded over exact
rationals: `Float32Array` vectors become `List ℚ`, the weight matrix
becomes `List (List ℚ)` in hidden-major order (`weights[hidden][visible]`),
and `Math.exp` is an explicit function parameter `e : ℚ → ℚ` (witnesses
instantiate it with concrete computable stand-ins; theorems hold for the
real exponential as a special case).  Out-of-range reads are modelled with
`List.getD _ _ 0`; the claims under verification only exercise in-range
accesses.  `Math.random` draws are modelled as explicit oracle arguments,
so every stochastic routine becomes a deterministic function of its random
inputs.  Accumulation loops (`energy -= ...`, `activation += ...`) are
rendered as `List.foldl` over `List.range`, mirroring the source loops.
-/

namespace RBM

/-- Training method tag, from `src/types` (`TrainingMethod`). -/
inductive TrainingMethod where
  | contrastiveDivergence
  | simulatedAnnealing
  | equilibrium
deriving DecidableEq, Repr

/-- The `BernoulliRBM` class state: sizes, hyperparameters and the mutable
parameter set (`weights`, `hiddenBias`, `visibleBias`). -/
structure BernoulliRBM where
  nVisible : ℕ
  nHidden : ℕ
  learningRate : ℚ
  batchSize : ℕ
  trainingMethod : TrainingMethod
  weights : List (List ℚ)
  hiddenBias : List ℚ
  visibleBias : List ℚ
deriving DecidableEq, Repr

/-- Raw matrix access `weights[i][j]` (`i` = hidden row, `j` = visible column). -/
def weightAt (m : BernoulliRBM) (i j : ℕ) : ℚ :=
  (m.weights.getD i []).getD j 0

/-- `computeEnergy(visible, hidden)` from `BernoulliRBM` (part_006 lines
41-62, part_007 lines 72-93): three sequential subtraction loops over the
visible-bias, hidden-bias and interaction terms; the interaction loop reads
`weights[j][i]` with `i` visible and `j` hidden. -/
def computeEnergy (m : BernoulliRBM) (visible hidden : List ℚ) : ℚ :=
  let e1 := (List.range m.nVisible).foldl
    (fun acc i => acc - m.visibleBias.getD i 0 * visible.getD i 0) 0
  let e2 := (List.range m.nHidden).foldl
    (fun acc j => acc - m.hiddenBias.getD j 0 * hidden.getD j 0) e1
  (List.range m.nVisible).foldl
    (fun acc i =>
      (List.range m.nHidden).foldl
        (fun acc2 j => acc2 - weightAt m j i * visible.getD i 0 * hidden.getD j 0) acc)
    e2

/-- A subtraction loop over `List.range n` computes the negated range sum. -/
lemma foldl_sub_range (f : ℕ → ℚ) :
    ∀ (n : ℕ) (a : ℚ),
      (List.range n).foldl (fun acc i => acc - f i) a = a - ∑ i in Finset.range n, f i := by
  intro n
  induction n with
  | zero => intro a; simp
  | succ k ih =>
      intro a
      rw [List.range_succ, List.foldl_append, ih, Finset.sum_range_succ]
      simp
      ring

/-- A doubly nested subtraction loop computes the negated double range sum. -/
lemma foldl_sub_range₂ (g : ℕ → ℕ → ℚ) (mH : ℕ) :
    ∀ (n : ℕ) (a : ℚ),
      (List.range n).foldl
          (fun acc i => (List.range mH).foldl (fun acc2 j => acc2 - g i j) acc) a
        = a - ∑ i in Finset.range n, ∑ j in Finset.range mH, g i j := by
  intro n
  induction n with
  | zero => intro a; simp
  | succ k ih =>
      intro a
      rw [List.range_succ, List.foldl_append, ih]
      simp [foldl_sub_range, Finset.sum_range_succ]
      ring

/-- The fixed 4-visible/3-hidden model of spec §8: weight rows
`[0.5,-0.3,0]`, `[0,0,0]`, `[0,0,0]` (padded with the trailing zero each
row of a 4-visible model requires), `hiddenBias = [0.2,0,0]`,
`visibleBias = [-0.1,0.4,0,0]`. -/
def c1Model : BernoulliRBM :=
  { nVisible := 4
    nHidden := 3
    learningRate := 6/100
    batchSize := 32
    trainingMethod := TrainingMethod.contrastiveDivergence
    weights := [[1/2, -3/10, 0, 0], [0, 0, 0, 0], [0, 0, 0, 0]]
    hiddenBias := [1/5, 0, 0]
    visibleBias := [-1/10, 2/5, 0, 0] }

/-- Claim C1: for every model and size-matching visible/hidden pair,
`computeEnergy` equals
`-Σ_i visibleBias[i]·visible[i] - Σ_j hiddenBias[j]·hidden[j]
 - Σ_{i,j} weights[j][i]·visible[i]·hidden[j]`;
and on the fixed 4-visible/3-hidden model of spec §8 with
`visible = [1,0,1,0]`, `hidden = [1,0,1]`, the energy is `-0.6`. -/
theorem computeEnergy_formula_and_example :
    (∀ (m : BernoulliRBM) (v h : List ℚ),
        v.length = m.nVisible → h.length = m.nHidden →
        computeEnergy m v h =
          -(∑ i in Finset.range m.nVisible, m.visibleBias.getD i 0 * v.getD i 0)
            - (∑ j in Finset.range m.nHidden, m.hiddenBias.getD j 0 * h.getD j 0)
            - ∑ i in Finset.range m.nVisible, ∑ j in Finset.range m.nHidden,
                weightAt m j i * v.getD i 0 * h.getD j 0)
    ∧ computeEnergy c1Model [1, 0, 1, 0] [1, 0, 1] = -(3/5) := by
  constructor
  · intro m v h _ _
    show (List.range m.nVisible).foldl _ _ = _
    rw [foldl_sub_range₂, foldl_sub_range, foldl_sub_range]
    ring
  · norm_num [computeEnergy, c1Model, weightAt, List.range_succ]

/-- Witness for C1: the formula instantiated at the fixed model and the
concrete visible/hidden pair, with the length hypotheses discharged. -/
theorem computeEnergy_formula_witness :
    computeEnergy c1Model [1, 0, 1, 0] [1, 0, 1] =
      -(∑ i in Finset.range c1Model.nVisible,
          c1Model.visibleBias.getD i 0 * ([1, 0, 1, 0] : List ℚ).getD i 0)
        - (∑ j in Finset.range c1Model.nHidden,
            c1Model.hiddenBias.getD j 0 * ([1, 0, 1] : List ℚ).getD j 0)
        - ∑ i in Finset.range c1Model.nVisible, ∑ j in Finset.range c1Model.nHidden,
            weightAt c1Model j i * ([1, 0, 1, 0] : List ℚ).getD i 0 *
              ([1, 0, 1] : List ℚ).getD j 0 :=
  computeEnergy_formula_and_example.1 c1Model [1, 0, 1, 0] [1, 0, 1] (by decide) (by decide)

/-- `randomMatrix(rows, cols, scale)`: entry `(i, j)` is
`(Math.random() - 0.5) * 2 * scale`; the per-entry uniform draw is the
oracle `rand i j`. -/
def randomMatrix (rand : ℕ → ℕ → ℚ) (rows cols : ℕ) (scale : ℚ) : List (List ℚ) :=
  (List.range rows).map (fun i =>
    (List.range cols).map (fun j => (rand i j - 1/2) * 2 * scale))

/-- The `BernoulliRBM` constructor (part_007 lines 26-37): stores the sizes
and hyperparameters unchecked, draws a random `nHidden × nVisible` weight
matrix (scale `0.005` for the equilibrium method, else `0.01`), and
zero-initialises both bias vectors. -/
def mkBernoulliRBM (rand : ℕ → ℕ → ℚ) (nVisible nHidden : ℕ) (learningRate : ℚ)
    (batchSize : ℕ) (trainingMethod : TrainingMethod) : BernoulliRBM :=
  let weightsScale : ℚ := if trainingMethod = TrainingMethod.equilibrium then 1/200 else 1/100
  { nVisible := nVisible
    nHidden := nHidden
    learningRate := learningRate
    batchSize := batchSize
    trainingMethod := trainingMethod
    weights := randomMatrix rand nHidden nVisible weightsScale
    hiddenBias := List.replicate nHidden 0
    visibleBias := List.replicate nVisible 0 }

/-- The parsed form of the JSON object written under the `rbm_weights` key:
a successfully parsed snapshot.  The `trainingMethod` field is optional
(`data.trainingMethod || 'contrastive-divergence'` on load). -/
structure StoredModelData where
  nVisible : ℕ
  nHidden : ℕ
  weights : List (List ℚ)
  hiddenBias : List ℚ
  visibleBias : List ℚ
  trainingMethod : Option TrainingMethod
  timestamp : ℕ
deriving DecidableEq, Repr

/-- `saveToLocalStorage` (part_007 lines 483-503): serialises sizes, the
weight matrix, both bias vectors, the method tag and a timestamp.
`Float32Array → number[]` conversion is the identity in the rational
model, and JSON stringification of the record is the identity on the
parsed form. -/
def saveToLocalStorage (m : BernoulliRBM) (timestamp : ℕ) : StoredModelData :=
  { nVisible := m.nVisible
    nHidden := m.nHidden
    weights := m.weights
    hiddenBias := m.hiddenBias
    visibleBias := m.visibleBias
    trainingMethod := some m.trainingMethod
    timestamp := timestamp }

/-- `loadFromLocalStorage` (part_007 lines 509-533): `none` models a
missing key or a snapshot on which `JSON.parse` (or field access) throws —
the catch block returns `null`.  A parsed snapshot is loaded by invoking
the constructor with the stored sizes, `learningRate = 0.06` and
`batchSize = 32`, then overwriting the three parameter arrays verbatim
from the snapshot; no dimension check is performed. -/
def loadFromLocalStorage (rand : ℕ → ℕ → ℚ) (stored : Option StoredModelData) :
    Option BernoulliRBM :=
  match stored with
  | none => none
  | some data =>
      let rbm := mkBernoulliRBM rand data.nVisible data.nHidden (6/100) 32
        (data.trainingMethod.getD TrainingMethod.contrastiveDivergence)
      some { rbm with
              weights := data.weights
              hiddenBias := data.hiddenBias
              visibleBias := data.visibleBias }

/-- Claim C2: decoding the snapshot produced by encoding a model recovers
the original `visibleSize`/`hiddenSize` and element-wise-equal `weights`,
`hiddenBias` and `visibleBias`, for every model. -/
theorem save_load_roundtrip (rand : ℕ → ℕ → ℚ) (m : BernoulliRBM) (ts : ℕ) :
    (loadFromLocalStorage rand (some (saveToLocalStorage m ts))).map
        (fun r => (r.nVisible, r.nHidden, r.weights, r.hiddenBias, r.visibleBias))
      = some (m.nVisible, m.nHidden, m.weights, m.hiddenBias, m.visibleBias) := rfl

/-- Claim C9: every model returned by `loadFromLocalStorage` has
`learningRate = 0.06` and `batchSize = 32`, whatever the snapshot holds —
these hyperparameters are not serialised and are reset on load. -/
theorem load_resets_hyperparameters (rand : ℕ → ℕ → ℚ) (stored : StoredModelData) :
    (loadFromLocalStorage rand (some stored)).map (fun r => (r.learningRate, r.batchSize))
      = some (6/100, 32) := rfl

/-- A dimensionally-inconsistent parsed snapshot: it declares 2 visible
units but its single weight row has 3 entries. -/
def inconsistentStored : StoredModelData :=
  { nVisible := 2
    nHidden := 1
    weights := [[1, 2, 3]]
    hiddenBias := [0]
    visibleBias := [0, 0]
    trainingMethod := none
    timestamp := 0 }

/-- Counterexample to claim C7: `loadFromLocalStorage` performs no
dimension validation, so a parseable snapshot whose weight-row length (3)
contradicts its declared visible size (2) is loaded rather than rejected:
the result is not `none` and carries the inconsistent arrays verbatim. -/
theorem load_inconsistent_snapshot_not_rejected :
    (loadFromLocalStorage (fun _ _ => 0) (some inconsistentStored)).isSome = true ∧
    (loadFromLocalStorage (fun _ _ => 0) (some inconsistentStored)).map
        (fun r => (r.nVisible, r.weights))
      = some (2, [[1, 2, 3]]) := ⟨rfl, rfl⟩

/-- Claim C7 as amended: `loadFromLocalStorage` returns `null` exactly for
an absent or unparseable snapshot; every parseable snapshot — including a
dimensionally-inconsistent one — is loaded without validation, the
returned model taking its sizes and its three parameter arrays verbatim
from the snapshot. -/
theorem load_fails_only_on_unparseable (rand : ℕ → ℕ → ℚ) (d : StoredModelData) :
    loadFromLocalStorage rand none = none ∧
    (loadFromLocalStorage rand (some d)).map
        (fun r => (r.nVisible, r.nHidden, r.weights, r.hiddenBias, r.visibleBias))
      = some (d.nVisible, d.nHidden, d.weights, d.hiddenBias, d.visibleBias) := ⟨rfl, rfl⟩

/-- Counterexample to claim C6: the constructor performs no size
validation; invoked with a non-positive (zero) visible size it does
produce a model, with `nVisible = 0` and its hidden structure intact. -/
theorem constructor_accepts_zero_size :
    (mkBernoulliRBM (fun _ _ => 0) 0 3 (6/100) 32 TrainingMethod.contrastiveDivergence).nVisible
        = 0 ∧
    (mkBernoulliRBM (fun _ _ => 0) 0 3 (6/100) 32 TrainingMethod.contrastiveDivergence).hiddenBias
        = [0, 0, 0] := ⟨rfl, rfl⟩

/-- Claim C6 as amended: the constructor is total and performs no size
validation; for any sizes — zero included — it returns a model carrying
exactly the requested sizes, zero bias vectors of matching lengths and an
`nHidden`-row random weight matrix whose rows each have `nVisible`
entries.  (Configuration errors are never raised; in the TypeScript source
only a negative size would incidentally throw, from typed-array
allocation, which the ℕ-sized model cannot express.) -/
theorem constructor_total_no_validation (rand : ℕ → ℕ → ℚ) (nV nH : ℕ) (lr : ℚ)
    (bs : ℕ) (tm : TrainingMethod) :
    (mkBernoulliRBM rand nV nH lr bs tm).nVisible = nV ∧
    (mkBernoulliRBM rand nV nH lr bs tm).nHidden = nH ∧
    (mkBernoulliRBM rand nV nH lr bs tm).hiddenBias = List.replicate nH 0 ∧
    (mkBernoulliRBM rand nV nH lr bs tm).visibleBias = List.replicate nV 0 ∧
    (mkBernoulliRBM rand nV nH lr bs tm).weights.length = nH ∧
    ∀ row ∈ (mkBernoulliRBM rand nV nH lr bs tm).weights, row.length = nV := by
  refine ⟨rfl, rfl, rfl, rfl, ?_, ?_⟩
  · simp [mkBernoulliRBM, randomMatrix]
  · intro row hrow
    simp only [mkBernoulliRBM, randomMatrix, List.mem_map] at hrow
    obtain ⟨i, _, hi⟩ := hrow
    simp [← hi]

/-- Clamp `x` into `[lo, hi]`, i.e. `Math.max(lo, Math.min(hi, x))`. -/
def clampQ (lo hi x : ℚ) : ℚ := max lo (min hi x)

/-- `sigmoid(x) = 1 / (1 + Math.exp(-x))` (part_007 lines 62-64, src
lines 34-36): the argument is passed to the exponential unclamped. -/
def sigmoid (e : ℚ → ℚ) (x : ℚ) : ℚ := 1 / (1 + e (-x))

/-- Modelled from the spec (§4.1): the clamped-argument sigmoid the spec
prescribes, which clamps `x` to `[-20, 20]` before exponentiation.  This
definition follows the spec words; it is compared against the source
`sigmoid` above. -/
def sigmoidClampedSpec (e : ℚ → ℚ) (x : ℚ) : ℚ := sigmoid e (clampQ (-20) 20 x)

/-- A computable strictly monotone positive stand-in for `Math.exp`, used
to instantiate the abstract exponential in concrete counterexamples:
`x + 1` on `[0, ∞)` and `1 / (1 - x)` on `(-∞, 0)`. -/
def expLike (x : ℚ) : ℚ := if 0 ≤ x then x + 1 else 1 / (1 - x)

lemma expLike_pos (x : ℚ) : 0 < expLike x := by
  unfold expLike
  split
  · linarith
  · have h1 : (0:ℚ) < 1 - x := by linarith [not_le.mp (by assumption)]
    positivity

lemma expLike_strictMono : StrictMono expLike := by
  intro a b hab
  unfold expLike
  rcases le_or_lt 0 a with ha | ha
  · rw [if_pos ha, if_pos (le_of_lt (lt_of_le_of_lt ha hab))]
    linarith
  · rw [if_neg (not_le.mpr ha)]
    rcases le_or_lt 0 b with hb | hb
    · rw [if_pos hb]
      have h1 : (1:ℚ) < 1 - a := by linarith
      have h2 : 1 / (1 - a) < 1 := by
        rw [div_lt_one (by linarith)]
        exact h1
      linarith
    · rw [if_neg (not_le.mpr hb)]
      have h1 : (0:ℚ) < 1 - b := by linarith
      have h2 : 1 - b < 1 - a := by linarith
      exact one_div_lt_one_div_of_lt h1 h2

/-- Counterexample to claim C8: the engine's `sigmoid` does not clamp its
argument, so for a strictly monotone positive exponential it disagrees
with the spec's clamped-argument sigmoid at `x = 21`: the unclamped value
is `1/(1 + e(-21))`, the clamped one `1/(1 + e(-20))`, and for the
concrete strictly monotone positive `expLike` these are `22/23 ≠ 21/22`. -/
theorem sigmoid_clamped_counterexample :
    StrictMono expLike ∧ (∀ y, 0 < expLike y) ∧
    sigmoid expLike 21 ≠ sigmoidClampedSpec expLike 21 := by
  refine ⟨expLike_strictMono, expLike_pos, ?_⟩
  norm_num [sigmoid, sigmoidClampedSpec, clampQ, expLike]

/-- Claim C8 as amended: the engine's `sigmoid` is the unclamped logistic
`1/(1 + exp(-x))`; it agrees with the spec's clamped-argument sigmoid on
every input already in `[-20, 20]` (where clamping is the identity), but
no clamping is performed by the code. -/
theorem sigmoid_eq_clamped_on_clamp_range (e : ℚ → ℚ) (x : ℚ)
    (h1 : -20 ≤ x) (h2 : x ≤ 20) :
    sigmoid e x = sigmoidClampedSpec e x := by
  unfold sigmoidClampedSpec clampQ
  rw [min_eq_right h2, max_eq_right h1]

/-- Witness for the amended C8 at `x = 0` with the concrete `expLike`. -/
theorem sigmoid_eq_clamped_witness :
    (-20 : ℚ) ≤ 0 ∧ (0 : ℚ) ≤ 20 ∧
    sigmoid expLike 0 = sigmoidClampedSpec expLike 0 :=
  ⟨by norm_num, by norm_num,
    sigmoid_eq_clamped_on_clamp_range expLike 0 (by norm_num) (by norm_num)⟩

/-- Hidden-unit pre-activation: `hiddenBias[i] + Σ_j visible[j] * weights[i][j]`
accumulated over the visible loop (part_006 lines 318-328). -/
def activationHidden (m : BernoulliRBM) (visible : List ℚ) (i : ℕ) : ℚ :=
  (List.range m.nVisible).foldl
    (fun acc j => acc + visible.getD j 0 * weightAt m i j) (m.hiddenBias.getD i 0)

/-- Visible-unit pre-activation: `visibleBias[i] + Σ_j hidden[j] * weights[j][i]`,
the transposed access pattern (part_006 lines 330-340). -/
def activationVisible (m : BernoulliRBM) (hidden : List ℚ) (i : ℕ) : ℚ :=
  (List.range m.nHidden).foldl
    (fun acc j => acc + hidden.getD j 0 * weightAt m j i) (m.visibleBias.getD i 0)

/-- `sampleHidden(visible)`: mean-field hidden probabilities. -/
def sampleHidden (e : ℚ → ℚ) (m : BernoulliRBM) (visible : List ℚ) : List ℚ :=
  (List.range m.nHidden).map (fun i => sigmoid e (activationHidden m visible i))

/-- `sampleVisible(hidden)`: mean-field visible probabilities. -/
def sampleVisible (e : ℚ → ℚ) (m : BernoulliRBM) (hidden : List ℚ) : List ℚ :=
  (List.range m.nVisible).map (fun i => sigmoid e (activationVisible m hidden i))

/-- One sample's contribution to the CD-1 weight gradient entry `(i, j)`:
`(hiddenProb[i]·sample[j] − hiddenRecon[i]·visibleRecon[j]) / batchSize`,
with `hiddenProb`, `visibleRecon`, `hiddenRecon` the single Gibbs
mean-field pass of `contrastiveDivergence` (part_007 lines 352-359). -/
def cdWeightContrib (e : ℚ → ℚ) (m : BernoulliRBM) (bSize : ℕ) (sample : List ℚ)
    (i j : ℕ) : ℚ :=
  let hiddenProb := sampleHidden e m sample
  let visibleRecon := sampleVisible e m hiddenProb
  let hiddenRecon := sampleHidden e m visibleRecon
  (hiddenProb.getD i 0 * sample.getD j 0 - hiddenRecon.getD i 0 * visibleRecon.getD j 0) / bSize

/-- One sample's contribution to the CD-1 hidden-bias gradient entry `i`:
`(hiddenProb[i] − hiddenRecon[i]) / batchSize` (part_007 line 361). -/
def cdHiddenContrib (e : ℚ → ℚ) (m : BernoulliRBM) (bSize : ℕ) (sample : List ℚ)
    (i : ℕ) : ℚ :=
  let hiddenProb := sampleHidden e m sample
  let visibleRecon := sampleVisible e m hiddenProb
  let hiddenRecon := sampleHidden e m visibleRecon
  (hiddenProb.getD i 0 - hiddenRecon.getD i 0) / bSize

/-- One sample's contribution to the CD-1 visible-bias gradient entry `i`:
`(sample[i] − visibleRecon[i]) / batchSize` (part_007 lines 364-366). -/
def cdVisibleContrib (e : ℚ → ℚ) (m : BernoulliRBM) (bSize : ℕ) (sample : List ℚ)
    (i : ℕ) : ℚ :=
  let visibleRecon := sampleVisible e m (sampleHidden e m sample)
  (sample.getD i 0 - visibleRecon.getD i 0) / bSize

/-- The accumulated CD-1 weight-gradient entry `(i, j)` over a batch. -/
def cdWeightGradEntry (e : ℚ → ℚ) (m : BernoulliRBM) (batch : List (List ℚ))
    (i j : ℕ) : ℚ :=
  batch.foldl (fun acc sample => acc + cdWeightContrib e m batch.length sample i j) 0

/-- The accumulated CD-1 hidden-bias gradient entry `i` over a batch. -/
def cdHiddenGradEntry (e : ℚ → ℚ) (m : BernoulliRBM) (batch : List (List ℚ)) (i : ℕ) : ℚ :=
  batch.foldl (fun acc sample => acc + cdHiddenContrib e m batch.length sample i) 0

/-- The accumulated CD-1 visible-bias gradient entry `i` over a batch. -/
def cdVisibleGradEntry (e : ℚ → ℚ) (m : BernoulliRBM) (batch : List (List ℚ)) (i : ℕ) : ℚ :=
  batch.foldl (fun acc sample => acc + cdVisibleContrib e m batch.length sample i) 0

/-- `contrastiveDivergence(batch)` (part_007 lines 345-379, src lines
62-96): accumulate the batch-averaged gradients, then apply
`param += learningRate * grad` to every weight and bias entry. -/
def contrastiveDivergence (e : ℚ → ℚ) (m : BernoulliRBM) (batch : List (List ℚ)) :
    BernoulliRBM :=
  { m with
    weights := (List.range m.nHidden).map (fun i =>
      (List.range m.nVisible).map (fun j =>
        weightAt m i j + m.learningRate * cdWeightGradEntry e m batch i j))
    hiddenBias := (List.range m.nHidden).map (fun i =>
      m.hiddenBias.getD i 0 + m.learningRate * cdHiddenGradEntry e m batch i)
    visibleBias := (List.range m.nVisible).map (fun i =>
      m.visibleBias.getD i 0 + m.learningRate * cdVisibleGradEntry e m batch i) }

/-- The all-zero visible sample of a model. -/
def zeroSample (m : BernoulliRBM) : List ℚ := List.replicate m.nVisible 0

/-- A batch of `n` identical all-zero samples. -/
def zeroBatch (m : BernoulliRBM) (n : ℕ) : List (List ℚ) :=
  List.replicate n (zeroSample m)

/-- An addition loop over `n` copies of the same element adds `n` times
its contribution. -/
lemma foldl_add_replicate {α : Type} (g : α → ℚ) (v : α) :
    ∀ (n : ℕ) (a : ℚ),
      (List.replicate n v).foldl (fun acc s => acc + g s) a = a + n * g v := by
  intro n
  induction n with
  | zero => intro a; simp
  | succ k ih =>
      intro a
      rw [List.replicate_succ, List.foldl_cons, ih]
      push_cast
      ring

lemma getD_replicate_zero (n j : ℕ) : (List.replicate n (0 : ℚ)).getD j 0 = 0 := by
  rcases lt_or_le j n with h | h
  · rw [List.getD_eq_getElem?_getD, List.getElem?_replicate, if_pos h]
    rfl
  · rw [List.getD_eq_default _ _ (by simpa using h)]

/-- The zero-parameter 1-visible/1-hidden model used in concrete CD
counterexamples. -/
def zeroModel : BernoulliRBM :=
  { nVisible := 1
    nHidden := 1
    learningRate := 6/100
    batchSize := 32
    trainingMethod := TrainingMethod.contrastiveDivergence
    weights := [[0]]
    hiddenBias := [0]
    visibleBias := [0] }

/-- Counterexample to claim C5: with the exponential modelled at the only
argument it is evaluated on (`e 0 = 1`, as for the real exponential), one
CD-1 update of the zero-parameter model on a batch of one all-zero sample
changes the parameters: the reconstruction phase yields mean-field value
`1/2` everywhere, so the weight receives `0.06 · (−1/4) = −3/200` and the
visible bias `0.06 · (−1/2) = −3/100`. -/
theorem cd_zero_batch_changes_params :
    (fun _ => (1 : ℚ)) 0 = 1 ∧
    contrastiveDivergence (fun _ => (1 : ℚ)) zeroModel (zeroBatch zeroModel 1) ≠ zeroModel ∧
    (contrastiveDivergence (fun _ => (1 : ℚ)) zeroModel (zeroBatch zeroModel 1)).weights
      = [[-(3/200)]] := by
  have hwval : (contrastiveDivergence (fun _ => (1 : ℚ)) zeroModel
      (zeroBatch zeroModel 1)).weights = [[-(3/200)]] := by
    norm_num [contrastiveDivergence, zeroModel, zeroBatch, zeroSample,
      cdWeightGradEntry, cdWeightContrib, sampleHidden, sampleVisible,
      activationHidden, activationVisible, weightAt, sigmoid, List.range_succ]
  refine ⟨rfl, ?_, hwval⟩
  intro hcontra
  have hw := congrArg BernoulliRBM.weights hcontra
  rw [hwval] at hw
  simp [zeroModel] at hw

/-- Claim C5 as amended: on a batch of `n > 0` identical all-zero samples
the positive-phase contributions vanish (the data term of every gradient
is zero), and the accumulated CD-1 gradients reduce to the negated
negative-phase reconstruction statistics of a single all-zero sample:
`weightGrad[i][j] = −hiddenRecon[i]·visibleRecon[j]`,
`hiddenGrad[i] = hiddenProb[i] − hiddenRecon[i]`,
`visibleGrad[i] = −visibleRecon[i]`; these are nonzero in general, so the
parameters may change. -/
theorem cd_zero_batch_grads (e : ℚ → ℚ) (m : BernoulliRBM) (n : ℕ) (hn : 0 < n) :
    (∀ i j, cdWeightGradEntry e m (zeroBatch m n) i j =
      -((sampleHidden e m (sampleVisible e m (sampleHidden e m (zeroSample m)))).getD i 0 *
        (sampleVisible e m (sampleHidden e m (zeroSample m))).getD j 0)) ∧
    (∀ i, cdHiddenGradEntry e m (zeroBatch m n) i =
      (sampleHidden e m (zeroSample m)).getD i 0 -
        (sampleHidden e m (sampleVisible e m (sampleHidden e m (zeroSample m)))).getD i 0) ∧
    (∀ i, cdVisibleGradEntry e m (zeroBatch m n) i =
      -((sampleVisible e m (sampleHidden e m (zeroSample m))).getD i 0)) := by
  have hnQ : (n : ℚ) ≠ 0 := Nat.cast_ne_zero.mpr hn.ne'
  have hlen : (zeroBatch m n).length = n := by simp [zeroBatch]
  refine ⟨?_, ?_, ?_⟩
  · intro i j
    unfold cdWeightGradEntry
    rw [hlen]
    unfold zeroBatch
    rw [foldl_add_replicate]
    unfold cdWeightContrib zeroSample
    rw [getD_replicate_zero]
    field_simp
    ring
  · intro i
    unfold cdHiddenGradEntry
    rw [hlen]
    unfold zeroBatch
    rw [foldl_add_replicate]
    unfold cdHiddenContrib
    field_simp
  · intro i
    unfold cdVisibleGradEntry
    rw [hlen]
    unfold zeroBatch
    rw [foldl_add_replicate]
    unfold cdVisibleContrib zeroSample
    rw [getD_replicate_zero]
    field_simp
    ring

/-- Witness for the amended C5: the weight-gradient formula at the
concrete zero model, batch size 1, entry `(0, 0)`. -/
theorem cd_zero_batch_grads_witness :
    0 < 1 ∧
    cdWeightGradEntry (fun _ => (1 : ℚ)) zeroModel (zeroBatch zeroModel 1) 0 0 =
      -((sampleHidden (fun _ => (1 : ℚ)) zeroModel
          (sampleVisible (fun _ => (1 : ℚ)) zeroModel
            (sampleHidden (fun _ => (1 : ℚ)) zeroModel (zeroSample zeroModel)))).getD 0 0 *
        (sampleVisible (fun _ => (1 : ℚ)) zeroModel
          (sampleHidden (fun _ => (1 : ℚ)) zeroModel (zeroSample zeroModel))).getD 0 0) :=
  ⟨Nat.one_pos,
    (cd_zero_batch_grads (fun _ => (1 : ℚ)) zeroModel 1 Nat.one_pos).1 0 0⟩

/-- One epoch of the contrastive-divergence branch of `fit` (part_007
lines 435-457, src lines 103-124): `nBatches = floor(nSamples / batchSize)`
batches are assembled from the shuffled index permutation (`indices`, the
oracle for that epoch's shuffle) and each is passed to
`contrastiveDivergence`. -/
def cdEpoch (e : ℚ → ℚ) (m : BernoulliRBM) (data : List (List ℚ))
    (indices : List ℕ) : BernoulliRBM :=
  let nBatches := data.length / m.batchSize
  (List.range nBatches).foldl
    (fun acc batchIdx =>
      let batch := (List.range acc.batchSize).map
        (fun i => data.getD (indices.getD (batchIdx * acc.batchSize + i) 0) [])
      contrastiveDivergence e acc batch)
    m

/-- The contrastive-divergence branch of `fit(data, nEpochs,
progressCallback)` (part_007 lines 432-465): per epoch, shuffle (oracle
`shuffle epoch`), run every batch, then invoke the progress callback with
`(epoch + 1, nEpochs)`.  The second component collects the callback
invocations in order. -/
def fitCD (e : ℚ → ℚ) (m : BernoulliRBM) (data : List (List ℚ)) (nEpochs : ℕ)
    (shuffle : ℕ → List ℕ) : BernoulliRBM × List (ℕ × ℕ) :=
  (List.range nEpochs).foldl
    (fun acc epoch =>
      let m2 := cdEpoch e acc.1 data (shuffle epoch)
      (m2, acc.2 ++ [(epoch + 1, nEpochs)]))
    (m, [])

lemma cdEpoch_small_data (e : ℚ → ℚ) (m : BernoulliRBM) (data : List (List ℚ))
    (indices : List ℕ) (h : data.length < m.batchSize) :
    cdEpoch e m data indices = m := by
  unfold cdEpoch
  rw [Nat.div_eq_of_lt h]
  rfl

/-- Claim C10: when fewer samples than `batchSize` are supplied,
`floor(nSamples / batchSize) = 0` batches run, so the CD branch of `fit`
leaves `weights`, `hiddenBias` and `visibleBias` untouched while the
progress callback still fires once per epoch with `(epoch + 1, nEpochs)`. -/
theorem fit_small_data_no_update (e : ℚ → ℚ) (m : BernoulliRBM)
    (data : List (List ℚ)) (nEpochs : ℕ) (shuffle : ℕ → List ℕ)
    (h : data.length < m.batchSize) :
    (fitCD e m data nEpochs shuffle).1.weights = m.weights ∧
    (fitCD e m data nEpochs shuffle).1.hiddenBias = m.hiddenBias ∧
    (fitCD e m data nEpochs shuffle).1.visibleBias = m.visibleBias ∧
    (fitCD e m data nEpochs shuffle).2
      = (List.range nEpochs).map (fun k => (k + 1, nEpochs)) := by
  have key : ∀ (l : List ℕ) (acc : List (ℕ × ℕ)),
      l.foldl
          (fun acc epoch =>
            let m2 := cdEpoch e acc.1 data (shuffle epoch)
            (m2, acc.2 ++ [(epoch + 1, nEpochs)]))
          (m, acc)
        = (m, acc ++ l.map (fun k => (k + 1, nEpochs))) := by
    intro l
    induction l with
    | nil => intro acc; simp
    | cons x xs ih =>
        intro acc
        rw [List.foldl_cons]
        show xs.foldl _ (cdEpoch e m data (shuffle x), acc ++ [(x + 1, nEpochs)]) = _
        rw [cdEpoch_small_data e m data (shuffle x) h, ih]
        simp
  have hfit : fitCD e m data nEpochs shuffle
      = (m, (List.range nEpochs).map (fun k => (k + 1, nEpochs))) := by
    unfold fitCD
    rw [key (List.range nEpochs) []]
    rfl
  rw [hfit]
  exact ⟨rfl, rfl, rfl, rfl⟩

/-- Witness for C10: the zero model (batch size 32) fitted on a single
sample for 2 epochs is unchanged, and the callback log is
`[(1, 2), (2, 2)]`. -/
theorem fit_small_data_witness :
    ([[0]] : List (List ℚ)).length < zeroModel.batchSize ∧
    ((fitCD (fun _ => (1 : ℚ)) zeroModel [[0]] 2 (fun _ => [])).1.weights
        = zeroModel.weights ∧
      (fitCD (fun _ => (1 : ℚ)) zeroModel [[0]] 2 (fun _ => [])).1.hiddenBias
        = zeroModel.hiddenBias ∧
      (fitCD (fun _ => (1 : ℚ)) zeroModel [[0]] 2 (fun _ => [])).1.visibleBias
        = zeroModel.visibleBias ∧
      (fitCD (fun _ => (1 : ℚ)) zeroModel [[0]] 2 (fun _ => [])).2
        = (List.range 2).map (fun k => (k + 1, 2))) :=
  ⟨by norm_num [zeroModel],
    fit_small_data_no_update (fun _ => (1 : ℚ)) zeroModel [[0]] 2 (fun _ => [])
      (by norm_num [zeroModel])⟩

/-- The mutable local state of `simulatedAnnealing` (part_006 lines
137-141, 199): the current sample, its hidden state, the current energy
and the accepted-move counter. -/
structure AnnealState where
  currentSample : List ℚ
  currentHidden : List ℚ
  currentEnergy : ℚ
  acceptedMoves : ℕ
deriving DecidableEq, Repr

/-- The Metropolis acceptance step of `simulatedAnnealing` (part_006 lines
171-209): compute the proposed energy and `ΔE`; accept unconditionally
when `ΔE ≤ 0`, otherwise accept when the uniform draw `u` is below
`exp(-ΔE / temperature)`; on acceptance bump the accepted-move counter and
replace the current sample, hidden state and energy with the proposed
ones.  The proposal itself (`proposedSample`, `proposedHidden`) is random
and passed as an oracle; the `isFinite` guard of the source is vacuous
over `ℚ`. -/
def metropolisStep (e : ℚ → ℚ) (m : BernoulliRBM) (st : AnnealState)
    (proposedSample proposedHidden : List ℚ) (u temperature : ℚ) :
    Bool × AnnealState :=
  let proposedEnergy := computeEnergy m proposedSample proposedHidden
  let energyDiff := proposedEnergy - st.currentEnergy
  let shouldAccept : Bool :=
    if energyDiff ≤ 0 then true else decide (u < e (-energyDiff / temperature))
  if shouldAccept then
    (true,
      { currentSample := proposedSample
        currentHidden := proposedHidden
        currentEnergy := proposedEnergy
        acceptedMoves := st.acceptedMoves + 1 })
  else (false, st)

/-- `Math.max(-0.01, Math.min(0.01, update))`: the per-unit update clamp
of the annealing weight update (part_006 lines 247, 258, 265). -/
def clampUpdate (u : ℚ) : ℚ := clampQ (-(1/100)) (1/100) u

/-- The sparse weight update of `simulatedAnnealing` (part_006 lines
213-268), applied on every 10th accepted move: contrast a freshly drawn
data sample's mean-field hidden activation with the current annealed
state, at learning rate `learningRate * 0.01`; every per-unit update is
clamped to `[-0.01, 0.01]`, every weight to `[-2, 2]` and every bias to
`[-1, 1]`.  Each entry is written exactly once, so the in-place loops
become entry-wise rebuilds. -/
def annealUpdateParams (e : ℚ → ℚ) (m : BernoulliRBM)
    (dataSample curSample curHidden : List ℚ) : BernoulliRBM :=
  let dataHidden := sampleHidden e m dataSample
  let lr := m.learningRate * (1/100)
  { m with
    weights := (List.range m.nHidden).map (fun j =>
      (List.range m.nVisible).map (fun i =>
        clampQ (-2) 2 (weightAt m j i +
          clampUpdate (lr * (dataSample.getD i 0 * dataHidden.getD j 0 -
            curSample.getD i 0 * curHidden.getD j 0)))))
    visibleBias := (List.range m.nVisible).map (fun i =>
      clampQ (-1) 1 (m.visibleBias.getD i 0 +
        clampUpdate (lr * (dataSample.getD i 0 - curSample.getD i 0))))
    hiddenBias := (List.range m.nHidden).map (fun j =>
      clampQ (-1) 1 (m.hiddenBias.getD j 0 +
        clampUpdate (lr * (dataHidden.getD j 0 - curHidden.getD j 0)))) }

/-- The random inputs consumed by one iteration of the annealing inner
loop: the proposed state (hidden flips plus resampled visible layer), the
acceptance draw, the freshly drawn data sample and the temperature. -/
structure AnnealInput where
  proposedSample : List ℚ
  proposedHidden : List ℚ
  u : ℚ
  dataSample : List ℚ
  temperature : ℚ
deriving Repr

/-- One full iteration of the annealing inner loop (part_006 lines
147-292): the Metropolis acceptance step, followed — on every 10th
accepted move — by the clamped weight update and the recomputation of the
current energy against the updated parameters. -/
def annealingIteration (e : ℚ → ℚ) (m : BernoulliRBM) (st : AnnealState)
    (inp : AnnealInput) : BernoulliRBM × AnnealState :=
  let res := metropolisStep e m st inp.proposedSample inp.proposedHidden inp.u inp.temperature
  let st1 := res.2
  if res.1 && st1.acceptedMoves % 10 == 0 then
    let m2 := annealUpdateParams e m inp.dataSample st1.currentSample st1.currentHidden
    (m2, { st1 with currentEnergy := computeEnergy m2 st1.currentSample st1.currentHidden })
  else (m, st1)

/-- Any number of annealing iterations, driven by a list of random-input
oracles. -/
def annealRun (e : ℚ → ℚ) (m : BernoulliRBM) (st : AnnealState)
    (inputs : List AnnealInput) : BernoulliRBM × AnnealState :=
  inputs.foldl (fun p inp => annealingIteration e p.1 p.2 inp) (m, st)

/-- The clamp bounds of spec §4.3: every weight in `[-2, 2]`, every hidden
or visible bias in `[-1, 1]`. -/
def paramsInBounds (m : BernoulliRBM) : Prop :=
  (∀ row ∈ m.weights, ∀ w ∈ row, -2 ≤ w ∧ w ≤ 2) ∧
  (∀ b ∈ m.hiddenBias, -1 ≤ b ∧ b ≤ 1) ∧
  (∀ b ∈ m.visibleBias, -1 ≤ b ∧ b ≤ 1)

lemma clampQ_mem (lo hi x : ℚ) (h : lo ≤ hi) :
    lo ≤ clampQ lo hi x ∧ clampQ lo hi x ≤ hi :=
  ⟨le_max_left lo _, max_le h (min_le_left hi x)⟩

lemma annealUpdateParams_inBounds (e : ℚ → ℚ) (m : BernoulliRBM)
    (dataSample curSample curHidden : List ℚ) :
    paramsInBounds (annealUpdateParams e m dataSample curSample curHidden) := by
  refine ⟨?_, ?_, ?_⟩
  · intro row hrow
    simp only [annealUpdateParams, List.mem_map] at hrow
    obtain ⟨j, _, hj⟩ := hrow
    intro w hw
    rw [← hj] at hw
    simp only [List.mem_map] at hw
    obtain ⟨i, _, hi⟩ := hw
    rw [← hi]
    exact clampQ_mem _ _ _ (by norm_num)
  · intro b hb
    simp only [annealUpdateParams, List.mem_map] at hb
    obtain ⟨j, _, hj⟩ := hb
    rw [← hj]
    exact clampQ_mem _ _ _ (by norm_num)
  · intro b hb
    simp only [annealUpdateParams, List.mem_map] at hb
    obtain ⟨i, _, hi⟩ := hb
    rw [← hi]
    exact clampQ_mem _ _ _ (by norm_num)

lemma annealingIteration_preserves (e : ℚ → ℚ) (m : BernoulliRBM)
    (st : AnnealState) (inp : AnnealInput) (h : paramsInBounds m) :
    paramsInBounds (annealingIteration e m st inp).1 := by
  unfold annealingIteration
  dsimp only
  split
  · exact annealUpdateParams_inBounds e m inp.dataSample _ _
  · exact h

/-- Claim C3: whenever the proposed transition has
`ΔE = proposedEnergy − currentEnergy ≤ 0`, the Metropolis step accepts it
unconditionally (with probability 1 — no random draw is consulted) and
replaces the current sample, hidden state and energy with the proposed
ones, bumping the accepted-move counter. -/
theorem metropolis_accepts_nonpositive_delta (e : ℚ → ℚ) (m : BernoulliRBM)
    (st : AnnealState) (pS pH : List ℚ) (u T : ℚ)
    (h : computeEnergy m pS pH - st.currentEnergy ≤ 0) :
    metropolisStep e m st pS pH u T =
      (true,
        { currentSample := pS
          currentHidden := pH
          currentEnergy := computeEnergy m pS pH
          acceptedMoves := st.acceptedMoves + 1 }) := by
  simp only [metropolisStep]
  rw [if_pos h]
  simp

/-- A concrete annealing state with zero energy and no accepted moves. -/
def annealState0 : AnnealState :=
  { currentSample := [0], currentHidden := [0], currentEnergy := 0, acceptedMoves := 0 }

/-- Witness for C3: on the zero model the all-zero proposal has energy 0,
so `ΔE = 0 ≤ 0` and the step accepts and replaces the state. -/
theorem metropolis_accepts_witness :
    computeEnergy zeroModel [0] [0] - annealState0.currentEnergy ≤ 0 ∧
    metropolisStep (fun _ => (1 : ℚ)) zeroModel annealState0 [0] [0] 0 1 =
      (true,
        { currentSample := [0]
          currentHidden := [0]
          currentEnergy := computeEnergy zeroModel [0] [0]
          acceptedMoves := annealState0.acceptedMoves + 1 }) :=
  ⟨by norm_num [computeEnergy, zeroModel, annealState0, weightAt, List.range_succ],
    metropolis_accepts_nonpositive_delta (fun _ => (1 : ℚ)) zeroModel annealState0 [0] [0] 0 1
      (by norm_num [computeEnergy, zeroModel, annealState0, weightAt, List.range_succ])⟩

/-- Claim C4: starting from a parameter set inside the clamp bounds (as
the freshly constructed model is), any number of annealing iterations
keeps every weight in `[-2, 2]` and every bias in `[-1, 1]`, and every
per-unit update passed through the update clamp lies in `[-0.01, 0.01]`. -/
theorem anneal_params_stay_clamped (e : ℚ → ℚ) (m : BernoulliRBM)
    (st : AnnealState) (inputs : List AnnealInput) (u : ℚ)
    (h : paramsInBounds m) :
    paramsInBounds (annealRun e m st inputs).1 ∧
    (-(1/100) ≤ clampUpdate u ∧ clampUpdate u ≤ 1/100) := by
  refine ⟨?_, clampQ_mem _ _ _ (by norm_num)⟩
  unfold annealRun
  induction inputs generalizing m st with
  | nil => exact h
  | cons x xs ih =>
      rw [List.foldl_cons]
      show paramsInBounds (xs.foldl _
        ((annealingIteration e m st x).1, (annealingIteration e m st x).2)).1
      exact ih _ _ (annealingIteration_preserves e m st x h)

/-- Witness for C4: the zero model is inside the bounds, and stays there
across a concrete annealing iteration with an accepting input. -/
theorem anneal_params_clamped_witness :
    paramsInBounds zeroModel ∧
    (paramsInBounds
        (annealRun (fun _ => (1 : ℚ)) zeroModel annealState0
          [{ proposedSample := [1], proposedHidden := [1], u := 0,
             dataSample := [1], temperature := 1 }]).1 ∧
      (-(1/100) ≤ clampUpdate 5 ∧ clampUpdate 5 ≤ 1/100)) := by
  have hb : paramsInBounds zeroModel := by
    norm_num [paramsInBounds, zeroModel]
  exact ⟨hb,
    anneal_params_stay_clamped (fun _ => (1 : ℚ)) zeroModel annealState0
      [{ proposedSample := [1], proposedHidden := [1], u := 0,
         dataSample := [1], temperature := 1 }] 5 hb⟩

end RBM
